import Mathlib

/-!
Shallow embedding of the fruit-chef-server Nakama module (src/build/index.js,
with its TypeScript source src/main.ts appended in the same file).

Modelling conventions:
* JavaScript numbers are modelled as `ℚ` (the module only compares, subtracts
  and rounds them, so exact rationals are a faithful model of the float64
  values that actually occur).
* `Math.round` is modelled by Mathlib's `round` (`⌊x + 1/2⌋`), which agrees
  with JavaScript's `Math.round` on every input, including negative halves.
* A JavaScript exception is modelled with `Except JsErr`; the host runtime
  ("nk") collaborators are oracle functions supplied as parameters, so the
  theorems quantify over every behavior of the collaborators.
* The unbounded `while (cursor != undefined)` pagination loop is modelled
  with explicit fuel; a `none` result means the loop has not terminated
  within the given fuel (the program would still be running, which is not an
  observable outcome and in particular not a thrown error).
* Side effects (storage writes, wallet updates, notification sends, metric
  records, leaderboard list calls) are modelled as explicit logs returned by
  the embedded functions.
-/

namespace FruitChef

/-- A JavaScript exception value: the `TypeError` raised by an unchecked
property access on `undefined` (such as `rewards["second"]["coins"]` when
the `second` tier is missing), or an arbitrary error thrown by a host
collaborator. -/
inductive JsErr where
  | typeError : JsErr
  | ext : String → JsErr
deriving DecidableEq, Repr

/-- A custom nkruntime error as defined at the top of the module:
a message and a gRPC-style numeric code. -/
structure NkError where
  message : String
  code : ℤ
deriving DecidableEq, Repr

/-- `errInternal` from the source: message `Internal error`, code 13. -/
def errInternal : NkError := { message := "Internal error", code := 13 }

/-- `errPermissionDenied` from the source: message `Permission denied`, code 7. -/
def errPermissionDenied : NkError := { message := "Permission denied", code := 7 }

/-- One tier entry of the rewards metadata: `{ coins: number }`.  The
configured amount may be fractional (float64 upstream). -/
structure RewardTier where
  coins : ℚ
deriving DecidableEq, Repr

/-- The rewards metadata object: tiers `first`, `second`, `third`, `rest`.
Each tier may be absent (`undefined` in JavaScript), in which case the
source's unchecked `rewards[tier]["coins"]` access throws a `TypeError`. -/
structure RewardTable where
  first : Option RewardTier
  second : Option RewardTier
  third : Option RewardTier
  rest : Option RewardTier
deriving DecidableEq, Repr

/-- The reward object built by `getReward`: `{ coins: Math.round(...) }`. -/
structure Reward where
  coins : ℚ
deriving DecidableEq, Repr

/-- Embedding of `getReward(rewards, rank, score)` from the source.  Returns
`.ok none` for the `return null` path (score 0), `.ok (some r)` for a built
reward object, and `.error .typeError` when the switch selects a tier that is
absent from the table (the unchecked `rewards[tier]["coins"]` access). -/
def getReward (rewards : RewardTable) (rank : ℚ) (score : ℚ) :
    Except JsErr (Option Reward) :=
  if score = 0 then
    .ok none
  else if rank = 1 then
    match rewards.first with
    | some tier => .ok (some { coins := ((round tier.coins : ℤ) : ℚ) })
    | none => .error .typeError
  else if rank = 2 then
    match rewards.second with
    | some tier => .ok (some { coins := ((round tier.coins : ℤ) : ℚ) })
    | none => .error .typeError
  else if rank = 3 then
    match rewards.third with
    | some tier => .ok (some { coins := ((round tier.coins : ℤ) : ℚ) })
    | none => .error .typeError
  else
    match rewards.rest with
    | some tier => .ok (some { coins := ((round tier.coins : ℤ) : ℚ) })
    | none => .error .typeError

/-- The tier of the table that the switch in `getReward` selects for a given
rank: `first`/`second`/`third` for ranks exactly 1/2/3, `rest` for every
other rank (the `default` case). -/
def tierFor (rewards : RewardTable) (rank : ℚ) : Option RewardTier :=
  if rank = 1 then rewards.first
  else if rank = 2 then rewards.second
  else if rank = 3 then rewards.third
  else rewards.rest

/-- A leaderboard record as used by the module: owner id, score and rank. -/
structure LeaderboardRecord where
  ownerId : String
  score : ℚ
  rank : ℚ
deriving DecidableEq, Repr

/-- The in-place rank reassignment of `SortRecords`:
`sorted?.forEach((record, index) => record.rank = index + 1)`, with `i` the
index of the first element. -/
def assignRanks : List LeaderboardRecord → ℕ → List LeaderboardRecord
  | [], _ => []
  | r :: rs, i => { r with rank := ((i + 1 : ℕ) : ℚ) } :: assignRanks rs (i + 1)

/-- The comparator of `SortRecords`, `(a, b) => b.score - a.score`, as the
Boolean "a may come before b" relation of a stable sort: descending score. -/
def scoreDesc (a b : LeaderboardRecord) : Bool := decide (b.score ≤ a.score)

/-- Embedding of `SortRecords(records)` from the source: `undefined` input
propagates (`records?.sort`), otherwise the records are stably sorted by
descending score (JavaScript `Array.prototype.sort` is stable) and then each
record's rank is overwritten with its 1-based position. -/
def SortRecords (records : Option (List LeaderboardRecord)) :
    Option (List LeaderboardRecord) :=
  records.map (fun rs => assignRanks (rs.mergeSort scoreDesc) 0)

/-- The per-player persisted bucket object `UserBucketStorageObject`:
`{ resetTimeUnix: number, userIds: string[] }`. -/
structure UserBucket where
  resetTimeUnix : ℚ
  userIds : List String
deriving DecidableEq, Repr

/-- `bucketSize` from `getBucketedTournamentRpc`. -/
def bucketSize : ℕ := 15

/-- The observable outcome of the bucket logic of `getBucketedTournamentRpc`:
the `storageWrite` calls performed, and the member id list passed to
`tournamentRecordsList` (which is also the cohort the caller sees). -/
structure BucketRpcOutcome where
  storageWrites : List UserBucket
  listedMemberIds : List String
deriving DecidableEq, Repr

/-- Embedding of the bucket reuse/regenerate logic of
`getBucketedTournamentRpc` for an authenticated caller.  Inputs model the
collaborator results: `stored` is the `storageRead` result for collection
`buckets`, key `bucket` (absent ⇒ `{resetTimeUnix: 0, userIds: []}`),
`endActive` is `tournaments[0].endActive`, and `randomUserIds` are the ids
of the `usersGetRandom(bucketSize)` result in order.  The returned outcome
logs the `storageWrite` calls and the ids passed to
`tournamentRecordsList`. -/
def getBucketedTournamentRpc (ctxUserId : String) (stored : Option UserBucket)
    (endActive : ℚ) (randomUserIds : List String) : BucketRpcOutcome :=
  let userBucket := stored.getD { resetTimeUnix := 0, userIds := [] }
  if userBucket.resetTimeUnix ≠ endActive ∨ userBucket.userIds.length < bucketSize then
    let newBucket : UserBucket := { resetTimeUnix := endActive, userIds := randomUserIds }
    { storageWrites := [newBucket], listedMemberIds := newBucket.userIds ++ [ctxUserId] }
  else
    { storageWrites := [], listedMemberIds := userBucket.userIds ++ [ctxUserId] }

/-- The content object of a reward notification. -/
structure NotificationContent where
  event_name : Option String
  reward : Reward
  rank : ℚ
deriving DecidableEq, Repr

/-- A notification request as pushed by `distributeEventRewards`. -/
structure NotificationReq where
  code : ℚ
  content : NotificationContent
  persistent : Bool
  subject : String
  userId : String
deriving DecidableEq, Repr

/-- A wallet update as pushed by `distributeEventRewards`. -/
structure WalletUpdate where
  userId : String
  changeset : Reward
deriving DecidableEq, Repr

/-- One page returned by `nk.tournamentRecordsList`: an optional record list
and an optional next cursor (absent ⇒ pagination exhausted). -/
structure RecordsPage where
  records : Option (List LeaderboardRecord)
  nextCursor : Option String
deriving DecidableEq, Repr

/-- The tournament object passed to the tournament-end hook; only the fields
the hook reads are modelled.  `metadata_rewards` is `tournament.metadata["rewards"]`
(absent ⇒ the hook is a no-op). -/
structure Tournament where
  id : String
  title : Option String
  metadata_rewards : Option RewardTable
deriving Repr

/-- The host-runtime collaborators used by `distributeEventRewards`, as
oracles.  `list limit i expiry` is the result of the `i`-th
`tournamentRecordsList` call of the run (the cursor argument is an opaque
token produced by the previous call, so indexing the oracle by call count
quantifies over every possible stateful behavior of the gateway); the other
three are the results of the single `walletsUpdate`, `notificationsSend` and
`metricsTimerRecord` calls. -/
structure DistCollabs where
  list : ℚ → ℕ → ℚ → Except JsErr RecordsPage
  walletsUpdate : List WalletUpdate → Except JsErr Unit
  notificationsSend : List NotificationReq → Except JsErr Unit
  metricsTimerRecord : Except JsErr Unit

/-- The log of collaborator calls performed during one distribution run:
the `(limit, expiryOverride)` arguments of each listing call, every record
iterated over by the scan in order, the wallet and notification batches
submitted, and the number of metric records. -/
structure Trace where
  listArgs : List (ℚ × ℚ)
  visited : List LeaderboardRecord
  walletBatches : List (List WalletUpdate)
  notifBatches : List (List NotificationReq)
  metricCalls : ℕ
deriving DecidableEq, Repr

/-- The empty trace: no collaborator call has happened. -/
def emptyTrace : Trace :=
  { listArgs := [], visited := [], walletBatches := [], notifBatches := [],
    metricCalls := 0 }

/-- The body of `results.records?.forEach(...)` folded over one page's
records: each record either raises the `getReward` exception, is skipped
(`null` reward), or appends one notification and one wallet update. -/
def processRecords (rewards : RewardTable) (title : Option String) :
    List LeaderboardRecord → List NotificationReq → List WalletUpdate →
    Except JsErr (List NotificationReq × List WalletUpdate)
  | [], notifs, wallets => .ok (notifs, wallets)
  | r :: rs, notifs, wallets =>
    match getReward rewards r.rank r.score with
    | .error e => .error e
    | .ok none => processRecords rewards title rs notifs wallets
    | .ok (some reward) =>
      processRecords rewards title rs
        (notifs ++ [{ code := 1,
                      content := { event_name := title, reward := reward, rank := r.rank },
                      persistent := true, subject := "event_reward",
                      userId := r.ownerId }])
        (wallets ++ [{ userId := r.ownerId, changeset := reward }])

/-- Embedding of the `while (cursor != undefined)` pagination loop of
`distributeEventRewards`: call `list` with page size 100 and the reset epoch
as expiry override, iterate over the returned records, then continue with
the next cursor until it is absent.  `fuel` bounds the number of iterations;
`none` means the loop is still running after `fuel` pages. -/
def runScan (g : ℚ → ℕ → ℚ → Except JsErr RecordsPage) (rewards : RewardTable)
    (title : Option String) (resetUnix : ℚ) :
    ℕ → ℕ → List NotificationReq → List WalletUpdate → Trace →
    Option (Except JsErr (List NotificationReq × List WalletUpdate) × Trace)
  | 0, _, _, _, _ => none
  | fuel + 1, i, notifs, wallets, t =>
    let t0 := { t with listArgs := t.listArgs ++ [(100, resetUnix)] }
    match g 100 i resetUnix with
    | .error e => some (.error e, t0)
    | .ok page =>
      let t1 := { t0 with visited := t0.visited ++ page.records.getD [] }
      match processRecords rewards title (page.records.getD []) notifs wallets with
      | .error e => some (.error e, t1)
      | .ok (notifs1, wallets1) =>
        match page.nextCursor with
        | none => some (.ok (notifs1, wallets1), t1)
        | some _ => runScan g rewards title resetUnix fuel (i + 1) notifs1 wallets1 t1

/-- The `try { ... }` block of `distributeEventRewards`: scan all pages, then
submit the wallet batch, the notification batch and the timer metric.  Any
collaborator exception aborts the block with that error (to be caught by the
surrounding `catch`). -/
def distributeTry (c : DistCollabs) (rewards : RewardTable) (title : Option String)
    (resetUnix : ℚ) (fuel : ℕ) : Option (Except JsErr Unit × Trace) :=
  match runScan c.list rewards title resetUnix fuel 0 [] [] emptyTrace with
  | none => none
  | some (.error e, t) => some (.error e, t)
  | some (.ok (notifs, wallets), t) =>
    let t1 := { t with walletBatches := t.walletBatches ++ [wallets] }
    match c.walletsUpdate wallets with
    | .error e => some (.error e, t1)
    | .ok _ =>
      let t2 := { t1 with notifBatches := t1.notifBatches ++ [notifs] }
      match c.notificationsSend notifs with
      | .error e => some (.error e, t2)
      | .ok _ =>
        let t3 := { t2 with metricCalls := t2.metricCalls + 1 }
        match c.metricsTimerRecord with
        | .error e => some (.error e, t3)
        | .ok _ => some (.ok (), t3)

/-- Embedding of the tournament-end hook `distributeEventRewards`.  When the
rewards metadata is absent the hook returns at once (no collaborator call);
otherwise it runs `distributeTry` and the `catch` converts any raised
exception into a normal return (logged and swallowed).  The first component
of the outcome is what the hook does outwardly: `.ok ()` models a normal
return, `.error` would model an uncaught exception. -/
def distributeEventRewards (c : DistCollabs) (tournament : Tournament)
    (resetUnix : ℚ) (fuel : ℕ) : Option (Except NkError Unit × Trace) :=
  match tournament.metadata_rewards with
  | none => some (.ok (), emptyTrace)
  | some rewards =>
    match distributeTry c rewards tournament.title resetUnix fuel with
    | none => none
    | some (.error _e, t) => some (.ok (), t)
    | some (.ok _, t) => some (.ok (), t)

/-- A stable underlying leaderboard split into pages, as a listing oracle:
the `i`-th call returns page `i` with a next cursor exactly when a further
page exists.  Models a gateway whose pagination eventually exhausts. -/
def pagesList (pages : List (List LeaderboardRecord)) :
    ℚ → ℕ → ℚ → Except JsErr RecordsPage :=
  fun _limit i _expiry =>
    .ok { records := some (pages.getD i []),
          nextCursor := if i + 1 < pages.length then some (toString (i + 1)) else none }

/-- A reward table that defines all four tiers, so that `getReward` never
raises. -/
def fullTable (rewards : RewardTable) : Prop :=
  rewards.first.isSome ∧ rewards.second.isSome ∧ rewards.third.isSome ∧
    rewards.rest.isSome

instance (rewards : RewardTable) : Decidable (fullTable rewards) := by
  unfold fullTable
  infer_instance

/-- A parsed `server_create_live_event` payload; fields may be absent from
the JSON object. -/
structure CreateMsg where
  id : Option String
  start_time : Option ℚ
  duration : Option ℚ
  rewards : Option RewardTable
deriving Repr

/-- The rewards part of a tournament's metadata as assembled by
`serverCreateLiveEventRpc`: `{ "rewards": message["rewards"] }`. -/
structure CreateMetadata where
  rewards : Option RewardTable
deriving Repr

/-- The full argument tuple of the single `nk.tournamentCreate` call. -/
structure TournamentCreateArgs where
  id : Option String
  authoritative : Bool
  sortOrder : String
  operator : String
  duration : Option ℚ
  resetSchedule : Option String
  metadata : CreateMetadata
  title : Option String
  description : Option String
  category : ℚ
  startTime : Option ℚ
  endTime : ℚ
  maxSize : Option ℚ
  maxNumScore : Option ℚ
  joinRequired : Bool
deriving Repr

/-- JavaScript truthiness of `ctx.userId`: truthy exactly when present and
non-empty (`undefined` for server-to-server calls). -/
def jsTruthyStr : Option String → Bool
  | none => false
  | some s => s ≠ ""

/-- Embedding of the RPC `serverCreateLiveEventRpc`.  `parse` models
`JSON.parse` on the payload and `tournamentCreate` the event-creation
collaborator; both may throw.  The outcome pairs the RPC result (the
returned string or the thrown nkruntime error) with the log of
`tournamentCreate` calls performed. -/
def serverCreateLiveEventRpc (ctxUserId : Option String)
    (parse : String → Except JsErr CreateMsg)
    (tournamentCreate : TournamentCreateArgs → Except JsErr Unit)
    (payload : String) : Except NkError String × List TournamentCreateArgs :=
  if jsTruthyStr ctxUserId then
    (.error errPermissionDenied, [])
  else
    match parse payload with
    | .error _ => (.error errInternal, [])
    | .ok message =>
      let args : TournamentCreateArgs :=
        { id := message.id, authoritative := false, sortOrder := "desc",
          operator := "incr", duration := message.duration, resetSchedule := none,
          metadata := { rewards := message.rewards }, title := none,
          description := none, category := 1, startTime := message.start_time,
          endTime := 0, maxSize := none, maxNumScore := none, joinRequired := false }
      match tournamentCreate args with
      | .error _ => (.error errInternal, [args])
      | .ok _ => (.ok "\x7b\"success\": true\x7d", [args])

/-- `Math.round 250.4 = 250` (250.4 is the rational 1252/5), used to
evaluate the fractional example. -/
theorem round_example : round ((1252 : ℚ) / 5) = 250 := by
  rw [round_eq, Int.floor_eq_iff]
  constructor
  · norm_num
  · norm_num

/-- Claim C2: for every reward table, rank and score, `getReward` returns
none when the score equals 0; otherwise it returns the table's `first`
reward for rank 1, `second` for rank 2, `third` for rank 3 and the `rest`
reward for any rank ≥ 4, with the returned coin amount equal to the
configured amount rounded to the nearest integer. -/
theorem c2_reward_tier_mapping :
    (∀ (rewards : RewardTable) (rank : ℚ), getReward rewards rank 0 = .ok none) ∧
    (∀ (rewards : RewardTable) (score : ℚ) (t : RewardTier), score ≠ 0 →
        rewards.first = some t →
        getReward rewards 1 score = .ok (some { coins := ((round t.coins : ℤ) : ℚ) })) ∧
    (∀ (rewards : RewardTable) (score : ℚ) (t : RewardTier), score ≠ 0 →
        rewards.second = some t →
        getReward rewards 2 score = .ok (some { coins := ((round t.coins : ℤ) : ℚ) })) ∧
    (∀ (rewards : RewardTable) (score : ℚ) (t : RewardTier), score ≠ 0 →
        rewards.third = some t →
        getReward rewards 3 score = .ok (some { coins := ((round t.coins : ℤ) : ℚ) })) ∧
    (∀ (rewards : RewardTable) (rank score : ℚ) (t : RewardTier), score ≠ 0 →
        4 ≤ rank → rewards.rest = some t →
        getReward rewards rank score = .ok (some { coins := ((round t.coins : ℤ) : ℚ) })) := by
  refine ⟨?_, ?_, ?_, ?_, ?_⟩
  · intro rewards rank
    simp [getReward]
  · intro rewards score t hs hf
    norm_num [getReward, hs, hf]
  · intro rewards score t hs hf
    norm_num [getReward, hs, hf]
  · intro rewards score t hs hf
    norm_num [getReward, hs, hf]
  · intro rewards rank score t hs hr hf
    have h1 : rank ≠ 1 := by intro h; rw [h] at hr; norm_num at hr
    have h2 : rank ≠ 2 := by intro h; rw [h] at hr; norm_num at hr
    have h3 : rank ≠ 3 := by intro h; rw [h] at hr; norm_num at hr
    simp [getReward, hs, h1, h2, h3, hf]

/-- Witness for C2: with all four tiers configured and score 5, rank 1
receives the rounded `first` amount and rank 7 the rounded `rest` amount. -/
theorem c2_reward_tier_mapping_witness :
    getReward { first := some { coins := 250.4 }, second := some { coins := 200 },
                third := some { coins := 150 }, rest := some { coins := 50 } } 1 5 =
      .ok (some { coins := ((round ((250.4 : ℚ)) : ℤ) : ℚ) }) ∧
    getReward { first := some { coins := 250.4 }, second := some { coins := 200 },
                third := some { coins := 150 }, rest := some { coins := 50 } } 7 5 =
      .ok (some { coins := ((round ((50 : ℚ)) : ℤ) : ℚ) }) :=
  ⟨c2_reward_tier_mapping.2.1 _ 5 { coins := 250.4 } (by norm_num) rfl,
   c2_reward_tier_mapping.2.2.2.2 _ 7 5 { coins := 50 } (by norm_num) (by norm_num) rfl⟩

/-- Claim C7: every coin amount returned by `getReward` is an integer, even
when the configured tier value is fractional; a configured `first` value of
250.4 yields a credited amount of 250. -/
theorem c7_integral_reward_amounts :
    (∀ (rewards : RewardTable) (rank score : ℚ) (r : Reward),
        getReward rewards rank score = .ok (some r) → ∃ n : ℤ, r.coins = (n : ℚ)) ∧
    getReward { first := some { coins := 250.4 }, second := none, third := none,
                rest := none } 1 1 = .ok (some { coins := 250 }) := by
  constructor
  · intro rewards rank score r h
    unfold getReward at h
    split at h
    · simp at h
    · split at h
      · split at h
        · simp only [Except.ok.injEq, Option.some.injEq] at h
          exact ⟨_, congrArg Reward.coins h.symm⟩
        · simp at h
      · split at h
        · split at h
          · simp only [Except.ok.injEq, Option.some.injEq] at h
            exact ⟨_, congrArg Reward.coins h.symm⟩
          · simp at h
        · split at h
          · split at h
            · simp only [Except.ok.injEq, Option.some.injEq] at h
              exact ⟨_, congrArg Reward.coins h.symm⟩
            · simp at h
          · split at h
            · simp only [Except.ok.injEq, Option.some.injEq] at h
              exact ⟨_, congrArg Reward.coins h.symm⟩
            · simp at h
  · norm_num [getReward, round_example]

/-- Witness for C7: the integrality statement applied at the fractional
example input. -/
theorem c7_integral_reward_amounts_witness :
    ∃ n : ℤ, ({ coins := 250 } : Reward).coins = (n : ℚ) :=
  c7_integral_reward_amounts.1 _ 1 1 _ c7_integral_reward_amounts.2

/-- Claim C8: when the reward table omits the tier that a reached rank maps
to, `getReward` performs an unchecked property access on the missing tier
and fails at runtime (a `TypeError`), rather than skipping the player or
returning a zero reward. -/
theorem c8_missing_tier_throws :
    ∀ (rewards : RewardTable) (rank score : ℚ), score ≠ 0 →
      tierFor rewards rank = none →
      getReward rewards rank score = .error .typeError := by
  intro rewards rank score hs ht
  unfold tierFor at ht
  by_cases h1 : rank = 1
  · rw [if_pos h1] at ht
    simp [getReward, hs, h1, ht]
  · by_cases h2 : rank = 2
    · rw [if_neg h1, if_pos h2] at ht
      simp [getReward, hs, h1, h2, ht]
    · by_cases h3 : rank = 3
      · rw [if_neg h1, if_neg h2, if_pos h3] at ht
        simp [getReward, hs, h1, h2, h3, ht]
      · rw [if_neg h1, if_neg h2, if_neg h3] at ht
        simp [getReward, hs, h1, h2, h3, ht]

/-- Witness for C8: a table with no `second` tier makes a scored rank-2
lookup throw. -/
theorem c8_missing_tier_throws_witness :
    getReward { first := some { coins := 100 }, second := none,
                third := some { coins := 1 }, rest := some { coins := 1 } } 2 5 =
      .error .typeError :=
  c8_missing_tier_throws _ 2 5 (by norm_num) (by norm_num [tierFor])

/-- Claim C10: for every nonzero score and every rank outside 1, 2, 3 —
including rank 0 and negative ranks — `getReward` returns the rounded
`rest`-tier reward, because the switch's default case captures every rank
that is not exactly 1, 2 or 3. -/
theorem c10_default_tier_all_other_ranks :
    ∀ (rewards : RewardTable) (rank score : ℚ) (t : RewardTier), score ≠ 0 →
      rank ≠ 1 → rank ≠ 2 → rank ≠ 3 → rewards.rest = some t →
      getReward rewards rank score = .ok (some { coins := ((round t.coins : ℤ) : ℚ) }) := by
  intro rewards rank score t hs h1 h2 h3 hf
  simp [getReward, hs, h1, h2, h3, hf]

/-- Witness for C10: rank 0 and rank −2 both receive the `rest` reward. -/
theorem c10_default_tier_all_other_ranks_witness :
    getReward { first := some { coins := 9 }, second := some { coins := 8 },
                third := some { coins := 7 }, rest := some { coins := 50 } } 0 5 =
      .ok (some { coins := ((round ((50 : ℚ)) : ℤ) : ℚ) }) ∧
    getReward { first := some { coins := 9 }, second := some { coins := 8 },
                third := some { coins := 7 }, rest := some { coins := 50 } } (-2) 5 =
      .ok (some { coins := ((round ((50 : ℚ)) : ℤ) : ℚ) }) :=
  ⟨c10_default_tier_all_other_ranks _ 0 5 { coins := 50 } (by norm_num) (by norm_num)
      (by norm_num) (by norm_num) rfl,
   c10_default_tier_all_other_ranks _ (-2) 5 { coins := 50 } (by norm_num) (by norm_num)
      (by norm_num) (by norm_num) rfl⟩

/-- Claim C1: for every stored bucket and event, `getBucketedTournamentRpc`
regenerates the player's cohort exactly when the stored bucket's
`resetTimeUnix` differs from the event's `endActive` or the stored member
list has fewer than 15 ids; a regeneration performs exactly one storage
write (of the freshly sampled bucket stamped with `endActive`), and when
neither condition holds no storage write occurs and the stored member set is
reused unchanged. -/
theorem c1_bucket_regeneration :
    ∀ (uid : String) (b : UserBucket) (endActive : ℚ) (rnd : List String),
      ((b.resetTimeUnix ≠ endActive ∨ b.userIds.length < bucketSize) →
        (getBucketedTournamentRpc uid (some b) endActive rnd).storageWrites =
          [{ resetTimeUnix := endActive, userIds := rnd }]) ∧
      (¬(b.resetTimeUnix ≠ endActive ∨ b.userIds.length < bucketSize) →
        (getBucketedTournamentRpc uid (some b) endActive rnd).storageWrites = [] ∧
        (getBucketedTournamentRpc uid (some b) endActive rnd).listedMemberIds =
          b.userIds ++ [uid]) := by
  intro uid b endActive rnd
  constructor
  · intro hcond
    simp [getBucketedTournamentRpc, hcond]
  · intro hcond
    simp [getBucketedTournamentRpc, hcond]

/-- Witness for C1: a stale bucket (reset 0 against endActive 1) triggers a
regeneration with exactly one storage write; a fresh full bucket is reused
with no write. -/
theorem c1_bucket_regeneration_witness :
    (getBucketedTournamentRpc "me" (some { resetTimeUnix := 0, userIds := [] }) 1
        ["a"]).storageWrites = [{ resetTimeUnix := 1, userIds := ["a"] }] ∧
    ((getBucketedTournamentRpc "me"
        (some { resetTimeUnix := 1,
                userIds := ["a","b","c","d","e","f","g","h","i","j","k","l","m","n","o"] })
        1 ["z"]).storageWrites = [] ∧
      (getBucketedTournamentRpc "me"
        (some { resetTimeUnix := 1,
                userIds := ["a","b","c","d","e","f","g","h","i","j","k","l","m","n","o"] })
        1 ["z"]).listedMemberIds =
        ["a","b","c","d","e","f","g","h","i","j","k","l","m","n","o"] ++ ["me"]) :=
  ⟨(c1_bucket_regeneration "me" { resetTimeUnix := 0, userIds := [] } 1 ["a"]).1
      (Or.inl (by norm_num)),
   (c1_bucket_regeneration "me"
      { resetTimeUnix := 1,
        userIds := ["a","b","c","d","e","f","g","h","i","j","k","l","m","n","o"] }
      1 ["z"]).2 (by simp [bucketSize])⟩

/-- Counterexample to claim C5 as stated: when the random population sample
happens to contain the requesting player (the source samples uniformly with
no exclusion of the requester), the freshly written bucket contains the
player's own id, and the cohort passed to the leaderboard listing contains
it twice — refuting both "exactly once in the listed cohort" and "never in
storage". -/
theorem c5_self_id_counterexample :
    ((getBucketedTournamentRpc "u0" (some { resetTimeUnix := 0, userIds := [] }) 0
        ["u0"]).listedMemberIds.count "u0" = 2) ∧
    (∃ w ∈ (getBucketedTournamentRpc "u0" (some { resetTimeUnix := 0, userIds := [] }) 0
        ["u0"]).storageWrites, "u0" ∈ w.userIds) := by
  constructor
  · rfl
  · refine ⟨{ resetTimeUnix := 0, userIds := ["u0"] }, ?_, ?_⟩
    · simp [getBucketedTournamentRpc, bucketSize]
    · simp

/-- Claim C5, amended: provided neither the stored member list nor the
random sample contains the requesting player's id (the source neither
deduplicates nor excludes the requester, so this can fail), the cohort
passed to the leaderboard listing contains the player's own id exactly once
— it is appended after the reuse/regenerate decision — and no storage write
ever contains it. -/
theorem c5_self_id_amended :
    ∀ (uid : String) (stored : Option UserBucket) (endActive : ℚ) (rnd : List String),
      uid ∉ rnd →
      uid ∉ (stored.getD { resetTimeUnix := 0, userIds := [] }).userIds →
      (getBucketedTournamentRpc uid stored endActive rnd).listedMemberIds.count uid = 1 ∧
      ∀ w ∈ (getBucketedTournamentRpc uid stored endActive rnd).storageWrites,
        uid ∉ w.userIds := by
  intro uid stored endActive rnd hrnd hstored
  by_cases hc : (stored.getD { resetTimeUnix := 0, userIds := [] }).resetTimeUnix ≠ endActive ∨
      (stored.getD { resetTimeUnix := 0, userIds := [] }).userIds.length < bucketSize
  · refine ⟨?_, ?_⟩
    · simp [getBucketedTournamentRpc, if_pos hc, List.count_append,
        List.count_eq_zero_of_not_mem hrnd]
    · intro w hw
      simp only [getBucketedTournamentRpc, if_pos hc, List.mem_singleton] at hw
      subst hw
      exact hrnd
  · refine ⟨?_, ?_⟩
    · simp [getBucketedTournamentRpc, if_neg hc, List.count_append,
        List.count_eq_zero_of_not_mem hstored]
    · intro w hw
      simp [getBucketedTournamentRpc, if_neg hc] at hw

/-- Witness for the amended C5: a first-time caller whose random sample does
not include them sees themself exactly once and is absent from the write. -/
theorem c5_self_id_amended_witness :
    (getBucketedTournamentRpc "me" none 0 ["a"]).listedMemberIds.count "me" = 1 ∧
    ∀ w ∈ (getBucketedTournamentRpc "me" none 0 ["a"]).storageWrites,
      "me" ∉ w.userIds :=
  c5_self_id_amended "me" none 0 ["a"] (by decide) (by decide)

/-- Claim C9: for every payload and every behavior of the parsing and
event-creation collaborators, `serverCreateLiveEventRpc` invoked with an
authenticated end-user identity present fails with `PermissionDenied` and
performs no `tournamentCreate` call; whenever a `tournamentCreate` call is
performed, the caller was server-to-server (no truthy user id). -/
theorem c9_create_event_authorization :
    (∀ (u : Option String) (parse : String → Except JsErr CreateMsg)
        (create : TournamentCreateArgs → Except JsErr Unit) (payload : String),
        jsTruthyStr u = true →
        serverCreateLiveEventRpc u parse create payload =
          (.error errPermissionDenied, [])) ∧
    (∀ (u : Option String) (parse : String → Except JsErr CreateMsg)
        (create : TournamentCreateArgs → Except JsErr Unit) (payload : String),
        (serverCreateLiveEventRpc u parse create payload).2 ≠ [] →
        jsTruthyStr u = false) := by
  constructor
  · intro u parse create payload hu
    simp [serverCreateLiveEventRpc, hu]
  · intro u parse create payload hcalls
    by_cases hu : jsTruthyStr u = true
    · exact absurd (by simp [serverCreateLiveEventRpc, hu]) hcalls
    · simpa using hu

/-- Witness for C9: an authenticated player calling the creation RPC is
denied with no creation call, whatever the payload. -/
theorem c9_create_event_authorization_witness :
    serverCreateLiveEventRpc (some "player1") (fun _ => .error (.ext "bad json"))
      (fun _ => .ok ()) "" = (.error errPermissionDenied, []) :=
  c9_create_event_authorization.1 (some "player1") _ _ "" (by decide)

/-- Claim C3: `distributeEventRewards` never propagates an error to its
caller: for every tournament input and every behavior of the collaborators
(listing, wallet, notification, metrics), whenever the hook completes its
outward behavior is a normal return (never a thrown error), and when the
rewards metadata is absent it returns as a no-op with zero collaborator
calls. -/
theorem c3_failure_containment :
    (∀ (c : DistCollabs) (tournament : Tournament) (resetUnix : ℚ) (fuel : ℕ)
        (out : Except NkError Unit × Trace),
        distributeEventRewards c tournament resetUnix fuel = some out →
        out.1 = Except.ok ()) ∧
    (∀ (c : DistCollabs) (tournament : Tournament) (resetUnix : ℚ) (fuel : ℕ),
        tournament.metadata_rewards = none →
        distributeEventRewards c tournament resetUnix fuel =
          some (Except.ok (), emptyTrace)) := by
  constructor
  · intro c tournament resetUnix fuel out h
    unfold distributeEventRewards at h
    split at h
    · cases h
      rfl
    · split at h
      · cases h
      · cases h
        rfl
      · cases h
        rfl
  · intro c tournament resetUnix fuel h
    unfold distributeEventRewards
    rw [h]

/-- Witness for C3: a concrete one-page run completes normally, and a
tournament without rewards metadata is a no-op. -/
theorem c3_failure_containment_witness :
    ((Except.ok (), Trace.mk [(100, 0)] [] [[]] [[]] 1) :
      Except NkError Unit × Trace).1 = Except.ok () ∧
    distributeEventRewards
      { list := fun _ _ _ => .ok { records := some [], nextCursor := none },
        walletsUpdate := fun _ => .ok (), notificationsSend := fun _ => .ok (),
        metricsTimerRecord := .ok () }
      { id := "t2", title := none, metadata_rewards := none } 0 1 =
      some (Except.ok (), emptyTrace) :=
  ⟨c3_failure_containment.1
      { list := fun _ _ _ => .ok { records := some [], nextCursor := none },
        walletsUpdate := fun _ => .ok (), notificationsSend := fun _ => .ok (),
        metricsTimerRecord := .ok () }
      { id := "t1", title := none,
        metadata_rewards :=
          some { first := some { coins := 1 }, second := some { coins := 1 },
                 third := some { coins := 1 }, rest := some { coins := 1 } } }
      0 1 _ rfl,
   c3_failure_containment.2 _ _ 0 1 rfl⟩

/-- When all four tiers are configured, `getReward` never raises. -/
theorem getReward_full_ok (rewards : RewardTable) (h : fullTable rewards)
    (rank score : ℚ) : ∃ o, getReward rewards rank score = .ok o := by
  obtain ⟨hf, hs2, ht3, hr⟩ := h
  rw [Option.isSome_iff_exists] at hf hs2 ht3 hr
  obtain ⟨t1, e1⟩ := hf
  obtain ⟨t2, e2⟩ := hs2
  obtain ⟨t3, e3⟩ := ht3
  obtain ⟨t4, e4⟩ := hr
  unfold getReward
  rw [e1, e2, e3, e4]
  by_cases h0 : score = 0
  · simp [h0]
  · by_cases r1 : rank = 1 <;> by_cases r2 : rank = 2 <;> by_cases r3 : rank = 3 <;>
      simp [h0, r1, r2, r3]

/-- When all four tiers are configured, processing a record list never
raises. -/
theorem processRecords_full_ok (rewards : RewardTable) (h : fullTable rewards)
    (title : Option String) :
    ∀ (rs : List LeaderboardRecord) (notifs : List NotificationReq)
      (wallets : List WalletUpdate),
      ∃ out, processRecords rewards title rs notifs wallets = .ok out := by
  intro rs
  induction rs with
  | nil =>
    intro notifs wallets
    exact ⟨_, rfl⟩
  | cons r rest ih =>
    intro notifs wallets
    obtain ⟨o, ho⟩ := getReward_full_ok rewards h r.rank r.score
    unfold processRecords
    rw [ho]
    cases o with
    | none => exact ih _ _
    | some reward => exact ih _ _

/-- One unfolding step of the pagination loop. -/
theorem runScan_succ (g : ℚ → ℕ → ℚ → Except JsErr RecordsPage)
    (rewards : RewardTable) (title : Option String) (resetUnix : ℚ) (fuel i : ℕ)
    (notifs : List NotificationReq) (wallets : List WalletUpdate) (t : Trace) :
    runScan g rewards title resetUnix (fuel + 1) i notifs wallets t =
      (let t0 := { t with listArgs := t.listArgs ++ [(100, resetUnix)] }
       match g 100 i resetUnix with
       | .error e => some (.error e, t0)
       | .ok page =>
         let t1 := { t0 with visited := t0.visited ++ page.records.getD [] }
         match processRecords rewards title (page.records.getD []) notifs wallets with
         | .error e => some (.error e, t1)
         | .ok (notifs1, wallets1) =>
           match page.nextCursor with
           | none => some (.ok (notifs1, wallets1), t1)
           | some _ => runScan g rewards title resetUnix fuel (i + 1) notifs1 wallets1 t1) :=
  rfl

/-- Scanning a stable page decomposition from page `i` onward, with enough
fuel and a total reward table, succeeds, visits exactly the remaining
records in order, and performs one fixed-argument listing call per remaining
page. -/
theorem runScan_pagesList (pages : List (List LeaderboardRecord))
    (rewards : RewardTable) (title : Option String) (resetUnix : ℚ)
    (hfull : fullTable rewards) :
    ∀ (fuel i : ℕ) (notifs : List NotificationReq) (wallets : List WalletUpdate)
      (t : Trace), i < pages.length → pages.length - i ≤ fuel →
      ∃ nw t', runScan (pagesList pages) rewards title resetUnix fuel i notifs wallets t =
          some (.ok nw, t') ∧
        t'.visited = t.visited ++ (pages.drop i).flatten ∧
        t'.listArgs = t.listArgs ++ List.replicate (pages.length - i) (100, resetUnix) := by
  intro fuel
  induction fuel with
  | zero =>
    intro i notifs wallets t hi hfuel
    omega
  | succ fuel ih =>
    intro i notifs wallets t hi hfuel
    by_cases hnext : i + 1 < pages.length
    · have hpage : pagesList pages 100 i resetUnix =
          .ok { records := some (pages[i]), nextCursor := some (toString (i + 1)) } := by
        unfold pagesList
        rw [List.getD_eq_getElem _ _ hi, if_pos hnext]
      obtain ⟨out1, hp⟩ := processRecords_full_ok rewards hfull title (pages[i]) notifs wallets
      obtain ⟨n1, w1⟩ := out1
      obtain ⟨nw, t', hrec, hv, hl⟩ := ih (i + 1) n1 w1
        { t with listArgs := t.listArgs ++ [(100, resetUnix)],
                 visited := t.visited ++ pages[i] } hnext (by omega)
      refine ⟨nw, t', ?_, ?_, ?_⟩
      · rw [runScan_succ]
        simp only [hpage, hp, Option.getD_some]
        exact hrec
      · rw [hv]
        simp only [List.drop_eq_getElem_cons hi, List.flatten_cons]
        simp [List.append_assoc]
      · rw [hl]
        have hlen : pages.length - i = (pages.length - (i + 1)) + 1 := by omega
        rw [hlen, List.replicate_succ]
        simp [List.append_assoc]
    · have hpage : pagesList pages 100 i resetUnix =
          .ok { records := some (pages[i]), nextCursor := none } := by
        unfold pagesList
        rw [List.getD_eq_getElem _ _ hi, if_neg hnext]
      obtain ⟨out1, hp⟩ := processRecords_full_ok rewards hfull title (pages[i]) notifs wallets
      obtain ⟨n1, w1⟩ := out1
      refine ⟨(n1, w1),
        { t with listArgs := t.listArgs ++ [(100, resetUnix)],
                 visited := t.visited ++ pages[i] }, ?_, ?_, ?_⟩
      · rw [runScan_succ]
        simp only [hpage, hp, Option.getD_some]
      · simp only [List.drop_eq_getElem_cons hi, List.flatten_cons,
          List.drop_eq_nil_of_le (show pages.length ≤ i + 1 by omega)]
        simp
      · have hlen : pages.length - i = 1 := by omega
        rw [hlen, List.replicate_one]

/-- Counterexample to claim C4 as stated: with a reward table missing the
`rest` tier and a scored rank-4 record on the first of two pages, the scan
aborts with the `getReward` exception after page one.  Its listing would
have exhausted after the second page, yet the second page's record is never
visited — so "every record is visited exactly once" fails without an extra
assumption on per-record processing. -/
theorem c4_scan_counterexample :
    runScan (pagesList [[LeaderboardRecord.mk "a" 1 4], [LeaderboardRecord.mk "b" 1 1]])
      { first := some { coins := 1 }, second := some { coins := 1 },
        third := some { coins := 1 }, rest := none } none 0 2 0 [] [] emptyTrace =
      some (.error .typeError, Trace.mk [(100, 0)] [LeaderboardRecord.mk "a" 1 4] [] [] 0) ∧
    (Trace.mk [(100, 0)] [LeaderboardRecord.mk "a" 1 4] [] [] 0).visited ≠
      [[LeaderboardRecord.mk "a" 1 4], [LeaderboardRecord.mk "b" 1 1]].flatten := by
  constructor
  · rfl
  · decide

/-- Claim C4, amended: for every stable leaderboard split into pages whose
listing exhausts its cursor after the last page, provided per-record reward
lookup raises no exception (all four tiers configured), the scan loop
terminates, visits every record of the leaderboard exactly once in order
across all pages, and issues one listing call per page, each with page size
100 and the reset epoch as expiry override. -/
theorem c4_scan_completeness_amended :
    ∀ (pages : List (List LeaderboardRecord)) (rewards : RewardTable)
      (title : Option String) (resetUnix : ℚ) (fuel : ℕ),
      fullTable rewards → pages ≠ [] → pages.length ≤ fuel →
      ∃ nw t, runScan (pagesList pages) rewards title resetUnix fuel 0 [] [] emptyTrace =
          some (.ok nw, t) ∧
        t.visited = pages.flatten ∧
        t.listArgs = List.replicate pages.length (100, resetUnix) := by
  intro pages rewards title resetUnix fuel hfull hne hfuel
  obtain ⟨nw, t, hrun, hv, hl⟩ := runScan_pagesList pages rewards title resetUnix hfull
    fuel 0 [] [] emptyTrace (List.length_pos.mpr hne) (by omega)
  refine ⟨nw, t, hrun, ?_, ?_⟩
  · simpa [emptyTrace] using hv
  · simpa [emptyTrace] using hl

/-- Witness for the amended C4: a one-page leaderboard with a total table is
scanned completely in one listing call. -/
theorem c4_scan_completeness_amended_witness :
    ∃ nw t, runScan (pagesList [[LeaderboardRecord.mk "a" 1 1]])
        { first := some { coins := 10 }, second := some { coins := 10 },
          third := some { coins := 10 }, rest := some { coins := 10 } }
        none 0 1 0 [] [] emptyTrace = some (.ok nw, t) ∧
      t.visited = [[LeaderboardRecord.mk "a" 1 1]].flatten ∧
      t.listArgs = List.replicate ([[LeaderboardRecord.mk "a" 1 1]] : List _).length (100, 0) :=
  c4_scan_completeness_amended [[LeaderboardRecord.mk "a" 1 1]] _ none 0 1
    (by decide) (by decide) (by decide)

/-- The comparator of `SortRecords` is transitive. -/
theorem scoreDesc_trans (a b c : LeaderboardRecord) :
    scoreDesc a b = true → scoreDesc b c = true → scoreDesc a c = true := by
  simp only [scoreDesc, decide_eq_true_eq]
  exact fun h1 h2 => le_trans h2 h1

/-- The comparator of `SortRecords` is total. -/
theorem scoreDesc_total (a b : LeaderboardRecord) :
    (scoreDesc a b || scoreDesc b a) = true := by
  simp only [scoreDesc, Bool.or_eq_true, decide_eq_true_eq]
  exact le_total b.score a.score

/-- Every element of `assignRanks l i` has the score of some element of
`l` (only ranks are rewritten). -/
theorem mem_assignRanks {b : LeaderboardRecord} :
    ∀ (l : List LeaderboardRecord) (i : ℕ), b ∈ assignRanks l i →
      ∃ a ∈ l, b.score = a.score := by
  intro l
  induction l with
  | nil =>
    intro i hb
    simp [assignRanks] at hb
  | cons r rs ih =>
    intro i hb
    unfold assignRanks at hb
    rcases List.mem_cons.mp hb with hb | hb
    · exact ⟨r, List.mem_cons_self r rs, by rw [hb]⟩
    · obtain ⟨a, ha, hs⟩ := ih (i + 1) hb
      exact ⟨a, List.mem_cons_of_mem r ha, hs⟩

/-- Rewriting ranks preserves sortedness by descending score. -/
theorem pairwise_assignRanks :
    ∀ (l : List LeaderboardRecord) (i : ℕ),
      l.Pairwise (fun a b => scoreDesc a b = true) →
      (assignRanks l i).Pairwise (fun a b => scoreDesc a b = true) := by
  intro l
  induction l with
  | nil =>
    intro i _
    simp [assignRanks]
  | cons r rs ih =>
    intro i hp
    rw [List.pairwise_cons] at hp
    unfold assignRanks
    rw [List.pairwise_cons]
    refine ⟨?_, ih (i + 1) hp.2⟩
    intro b hb
    obtain ⟨a, ha, hs⟩ := mem_assignRanks rs (i + 1) hb
    have := hp.1 a ha
    simp only [scoreDesc, decide_eq_true_eq] at this ⊢
    rw [hs]
    exact this

/-- Rank reassignment is idempotent. -/
theorem assignRanks_assignRanks :
    ∀ (l : List LeaderboardRecord) (i j : ℕ),
      assignRanks (assignRanks l j) i = assignRanks l i := by
  intro l
  induction l with
  | nil =>
    intro i j
    rfl
  | cons r rs ih =>
    intro i j
    simp only [assignRanks]
    rw [ih]

/-- The ranks produced by `assignRanks` starting at index `i` are
`i+1, i+2, ...` in order. -/
theorem map_rank_assignRanks :
    ∀ (l : List LeaderboardRecord) (i : ℕ),
      (assignRanks l i).map LeaderboardRecord.rank =
        (List.range l.length).map (fun k => ((i + k + 1 : ℕ) : ℚ)) := by
  intro l
  induction l with
  | nil =>
    intro i
    rfl
  | cons r rs ih =>
    intro i
    unfold assignRanks
    rw [List.map_cons, ih (i + 1)]
    simp only [List.length_cons, List.range_succ_eq_map, List.map_cons, List.map_map]
    have hfun : ((fun k => ((i + k + 1 : ℕ) : ℚ)) ∘ Nat.succ) =
        fun k => ((i + 1 + k + 1 : ℕ) : ℚ) := by
      funext k
      simp only [Function.comp_apply, Nat.succ_eq_add_one]
      congr 1
      omega
    rw [hfun]

/-- Claim C6: `SortRecords` is idempotent — sorting an
already-sorted-by-descending-score sequence leaves the element order intact
so the rank assignments are identical (position-based), and re-applying
`SortRecords` to its own output changes nothing — and for every input of N
records the ranks of the result are exactly the contiguous sequence 1..N in
order. -/
theorem c6_sort_records :
    (∀ xs : List LeaderboardRecord,
        xs.Pairwise (fun a b => scoreDesc a b = true) →
        SortRecords (some xs) = some (assignRanks xs 0)) ∧
    (∀ xs : List LeaderboardRecord,
        SortRecords (SortRecords (some xs)) = SortRecords (some xs)) ∧
    (∀ xs : List LeaderboardRecord,
        ((SortRecords (some xs)).getD []).map LeaderboardRecord.rank =
          (List.range xs.length).map (fun i => ((i + 1 : ℕ) : ℚ))) := by
  refine ⟨?_, ?_, ?_⟩
  · intro xs hp
    simp only [SortRecords, Option.map_some']
    rw [List.mergeSort_of_sorted hp]
  · intro xs
    simp only [SortRecords, Option.map_some']
    have hsorted : (xs.mergeSort scoreDesc).Pairwise (fun a b => scoreDesc a b = true) :=
      List.sorted_mergeSort scoreDesc_trans scoreDesc_total xs
    rw [List.mergeSort_of_sorted (pairwise_assignRanks _ 0 hsorted),
      assignRanks_assignRanks]
  · intro xs
    simp only [SortRecords, Option.map_some', Option.getD_some]
    rw [map_rank_assignRanks, List.length_mergeSort]
    simp

/-- Witness for C6: a two-record list already sorted by descending score
keeps its order and receives ranks 1, 2. -/
theorem c6_sort_records_witness :
    SortRecords (some [LeaderboardRecord.mk "a" 5 9, LeaderboardRecord.mk "b" 3 7]) =
      some (assignRanks [LeaderboardRecord.mk "a" 5 9, LeaderboardRecord.mk "b" 3 7] 0) :=
  c6_sort_records.1 [LeaderboardRecord.mk "a" 5 9, LeaderboardRecord.mk "b" 3 7]
    (by decide)

end FruitChef
